import Mathlib

/-! Overview.

Verification of `cacheline_movement_perf` (src/main.cpp, src/tests.cpp, src/tests.h):
a micro-benchmark measuring cache-line transfer latency between CPU cores.
This file shallowly embeds the pure control/data logic of the program and proves
the specified properties about it.  Hardware timestamps, atomics-observed values
and window contents are modelled as explicit input sequences; machine doubles are
modelled as rationals (with the single square root in the statistics kept in `ℝ`).
-/

namespace CacheLine

/-! Section: Statistics reducer (`calc_and_print_stat`, src/tests.cpp:63-90) -/

/-- Model of `std::sort(samples.begin(), samples.end())`: ascending sort of the sample list. -/
def sortSamples (l : List ℚ) : List ℚ :=
  l.insertionSort (· ≤ ·)

/-- Embeds `const std::size_t edge = samples.size() > 6 ? 3 : 0;` (src/tests.cpp:67). -/
def edge (n : ℕ) : ℕ :=
  if 6 < n then 3 else 0

/-- The divisor `samples.size() - 2 * edge` used for both the mean and the rms. -/
def trimCount (n : ℕ) : ℕ :=
  n - 2 * edge n

/-- The trimmed range `[samples.begin() + edge, samples.end() - edge)` of the sorted list. -/
def trimmedSamples (l : List ℚ) : List ℚ :=
  ((sortSamples l).drop (edge l.length)).take (l.length - 2 * edge l.length)

/-- Embeds `std::accumulate(begin+edge, end-edge, 0.0) / (samples.size() - 2*edge)` (src/tests.cpp:68). -/
def meanCycles (l : List ℚ) : ℚ :=
  (trimmedSamples l).sum / (trimCount l.length : ℚ)

/-- The argument of the final `std::pow(·, 0.5)`: the mean squared deviation over the
trimmed range (src/tests.cpp:69-73). -/
def rmsSqCycles (l : List ℚ) : ℚ :=
  ((trimmedSamples l).map (fun x => (x - meanCycles l) ^ 2)).sum / (trimCount l.length : ℚ)

/-- Embeds `std::pow(sumOfSquares / count, 0.5)`: the root-mean-square deviation. -/
noncomputable def rmsCycles (l : List ℚ) : ℝ :=
  Real.sqrt (rmsSqCycles l)

/-- Embeds `samples[samples.size() / 2]`: the median, read from the untrimmed sorted list
(src/tests.cpp:81,88). -/
def medianCycles (l : List ℚ) : ℚ :=
  (sortSamples l).getD (l.length / 2) 0

/-! Section: Rendered report (`calc_and_print_stat`, src/tests.cpp:75-89)

The stream output is modelled as a record of the numeric values that are printed.
Fields suffixed `Ns` hold the values printed inside the `(...ns)` parentheses;
they are `none` in the `freq == 0` branch, where no nanosecond value is printed. -/
structure StatReport where
  freqKnown : Bool
  measures : ℕ
  meanC : ℚ
  rmsSqC : ℚ
  medianC : ℚ
  meanNs : Option ℚ
  rmsSqNs : Option ℚ
  medianNs : Option ℚ
  deriving Repr, DecidableEq

/-- Embeds `calc_and_print_stat` (src/tests.cpp:63-90): sorts, trims, and renders the
statistics.  The rms value is rendered through its square (`rmsSqC`, `rmsSqNs`):
the printed rms is `√rmsSqC` and the printed rms nanoseconds is `√rmsSqNs`,
which keeps the record computable; `√(rmsSq/freq²) = (√rmsSq)/freq`.
Note src/tests.cpp:81 prints `samples[samples.size()/2]` for both the cycles and
the `ns` slot of the median line: the median nanosecond slot is not divided by
the frequency. -/
def calc_and_print_stat (samples : List ℚ) (cpufreq_ghz : ℚ) : StatReport :=
  if cpufreq_ghz = 0 then
    { freqKnown := false
      measures := samples.length
      meanC := meanCycles samples
      rmsSqC := rmsSqCycles samples
      medianC := medianCycles samples
      meanNs := none
      rmsSqNs := none
      medianNs := none }
  else
    { freqKnown := true
      measures := samples.length
      meanC := meanCycles samples
      rmsSqC := rmsSqCycles samples
      medianC := medianCycles samples
      meanNs := some (meanCycles samples / cpufreq_ghz)
      rmsSqNs := some (rmsSqCycles samples / cpufreq_ghz ^ 2)
      medianNs := some (medianCycles samples) }

/-! Section: Spin latch (`spin_latch`, src/main.cpp:41-52) -/

/-- Embeds `m_counter.fetch_sub(n, relaxed)`: returns the previous value and the new
counter state. -/
def fetch_sub (counter n : ℤ) : ℤ × ℤ :=
  (counter, counter - n)

/-- The busy-poll loop `while (m_counter.load(relaxed) != 0);` (src/main.cpp:49-50).
`obs k` is the value returned by the k-th load; the loop is run with explicit
fuel and returns the index of the load that observed `0`, or `none` if the fuel
is exhausted before any load observes `0`. -/
def pollLoop (obs : ℕ → ℤ) : ℕ → Option ℕ
  | 0 => none
  | fuel + 1 =>
    if obs 0 = 0 then some 0
    else (pollLoop (fun k => obs (k + 1)) fuel).map (· + 1)

/-- Embeds `arrive_and_wait(n)` (src/main.cpp:46-51) on a latch whose counter holds
`counter`: fetch-subtract `n`; if the fetched (previous) value equals `n`,
return immediately (`some true`); otherwise busy-poll.  `some false` means the
poll loop observed `0` and returned; `none` means it was still spinning when the
fuel ran out. -/
def arrive_and_wait (counter n : ℤ) (obs : ℕ → ℤ) (fuel : ℕ) : Option Bool :=
  if (fetch_sub counter n).1 = n then some true
  else (pollLoop obs fuel).map (fun _ => false)

/-! Section: Test runner (`test_runner::run`, src/main.cpp:66-122)

Each worker lambda is: `try { set_thread_affinity(cpuid); prepare(); } catch (...)
{ record error; }  barrier;  if (other error) return;  work();`.  Whether
`set_thread_affinity` and the prepare call throw is an input to the model; a
thrown error carries a message string. -/

/-- The error recorded in `m_errors[w]` by worker `w`'s try/catch block
(src/main.cpp:69-74, 83-88): the affinity error if binding threw, otherwise the
prepare error if preparing threw, otherwise nothing. -/
def recordedError (bindRes prepRes : Except String Unit) : Option String :=
  match bindRes with
  | .error e => some e
  | .ok _ =>
    match prepRes with
    | .error e => some e
    | .ok _ => none

/-- After the barrier, a worker runs the test case's work operation exactly when
the *other* worker's recorded error slot is empty (src/main.cpp:77-80, 91-94). -/
def workInvoked (otherError : Option String) : Bool :=
  otherError.isNone

/-- The orchestrator loop over `m_errors` after both joins (src/main.cpp:100-113):
starting from `res = 0` and `worker_idx = 1`, each present error sets `res = 1`
and writes one tagged message to the error channel. -/
def drainErrors (errors : List (Option String)) : List (ℕ × String) × ℕ :=
  let final : List (ℕ × String) × ℕ × ℕ :=
    errors.foldl
      (fun acc e =>
        match e with
        | some m => (acc.1 ++ [(acc.2.2, m)], 1, acc.2.2 + 1)
        | none => (acc.1, acc.2.1, acc.2.2 + 1))
      ([], 0, 1)
  (final.1, final.2.1)

/-- The outcome of `test_runner::run`. -/
structure RunResult where
  error1 : Option String
  error2 : Option String
  work1Invoked : Bool
  work2Invoked : Bool
  errChannel : List (ℕ × String)
  reportCalls : List ℚ
  status : ℕ
  deriving Repr, DecidableEq

/-- Embeds `test_runner::run` (src/main.cpp:66-122).  `bind1/prep1` and `bind2/prep2`
say whether each worker's affinity call and prepare call throw; `freq` is the
value `get_cpu_freq_ghz()` would return.  The report operation is invoked (with
`freq`) exactly when the drained error status is `0`. -/
def test_runner_run (bind1 prep1 bind2 prep2 : Except String Unit) (freq : ℚ) :
    RunResult :=
  let e1 := recordedError bind1 prep1
  let e2 := recordedError bind2 prep2
  let drained := drainErrors [e1, e2]
  { error1 := e1
    error2 := e2
    work1Invoked := workInvoked e2
    work2Invoked := workInvoked e1
    errChannel := drained.1
    reportCalls := if drained.2 = 0 then [freq] else []
    status := drained.2 }

/-! Section: Sample buffers and prepare phases (src/tests.h) -/

/-- Embeds `std::vector<T>::resize(n)` on a zero-initialised element type: keeps the
first `n` elements and zero-fills up to length `n`. -/
def resizeVec (v : List ℕ) (n : ℕ) : List ℕ :=
  v.take n ++ List.replicate (n - v.length) 0

/-- The two pinned workers. -/
inductive Worker
  | primary
  | secondary
  deriving Repr, DecidableEq

/-- The cycle buffers of `one_side_test` (src/tests.h:58-59): `m_start_cycles`
written only by the primary worker, `m_end_cycles` only by the secondary. -/
structure OneSideBuffers where
  startCycles : List ℕ
  endCycles : List ℕ
  deriving Repr, DecidableEq

/-- Embeds `one_side_test::one_prepare` (src/tests.h:63-65). -/
def one_side_one_prepare (b : OneSideBuffers) (attempts : ℕ) : OneSideBuffers :=
  { b with startCycles := resizeVec b.startCycles attempts }

/-- Embeds `one_side_test::another_prepare` (src/tests.h:67-69). -/
def one_side_another_prepare (b : OneSideBuffers) (attempts : ℕ) : OneSideBuffers :=
  { b with endCycles := resizeVec b.endCycles attempts }

/-- The single cycle buffer of `ping_pong_test` (src/tests.h:110): `m_cycles`,
written only by the primary worker (`one_work`). -/
structure PingPongBuffers where
  cycles : List ℕ
  deriving Repr, DecidableEq

/-- Embeds `ping_pong_test::one_prepare` (src/tests.h:113). -/
def ping_pong_one_prepare (b : PingPongBuffers) (attempts : ℕ) : PingPongBuffers :=
  { cycles := resizeVec b.cycles attempts }

/-- Embeds `ping_pong_test::another_prepare` (src/tests.h:114): the body is empty. -/
def ping_pong_another_prepare (b : PingPongBuffers) : PingPongBuffers :=
  b

/-- The per-attempt sample buffers of a `one_side_test` state, tagged with the
worker that writes each and carrying its length. -/
def one_side_sample_buffers (b : OneSideBuffers) : List (Worker × ℕ) :=
  [(Worker.primary, b.startCycles.length), (Worker.secondary, b.endCycles.length)]

/-- The per-attempt sample buffers of a `ping_pong_test` state: only `m_cycles`
exists, and only the primary worker writes it. -/
def ping_pong_sample_buffers (b : PingPongBuffers) : List (Worker × ℕ) :=
  [(Worker.primary, b.cycles.length)]

/-! Section: One-sided work phases (src/tests.cpp:94-154)

Timestamps returned by `rdtsc` are inputs: `ts a` is the value recorded in the
`a`-th loop iteration of the respective side.  Each side walks its own buffer
with a pointer starting at element 0 and advancing once per attempt, so the
`a`-th iteration writes index `a`. -/

/-- The buffer writes of `one_side_test::one_work` (src/tests.cpp:94-119): the
primary stores one timestamp per handshake round into `m_start_cycles[a]`. -/
def one_side_one_work (startCycles : List ℕ) (ts : ℕ → ℕ) (attempts : ℕ) : List ℕ :=
  (List.range attempts).foldl (fun v a => v.set a (ts a)) startCycles

/-- The buffer writes of `one_side_test::another_work` (src/tests.cpp:121-143):
the secondary stores the timestamp of the read that observed the expected value
into `m_end_cycles[a]`. -/
def one_side_another_work (endCycles : List ℕ) (ts : ℕ → ℕ) (attempts : ℕ) : List ℕ :=
  (List.range attempts).foldl (fun v a => v.set a (ts a)) endCycles

/-- Embeds the `one_side_test::report` sample collection (src/tests.cpp:145-152): for each
index with a non-zero end cycle, push `end - start` (as a double, so the
difference lives in `ℚ` and may be negative); indices whose end cycle is zero
are skipped. -/
def one_side_report_samples (startCycles endCycles : List ℕ) : List ℚ :=
  (List.range startCycles.length).filterMap (fun i =>
    if endCycles.getD i 0 ≠ 0 then
      some ((endCycles.getD i 0 : ℚ) - (startCycles.getD i 0 : ℚ))
    else none)

/-- Embeds `one_side_test::report` (src/tests.cpp:145-154). -/
def one_side_report (startCycles endCycles : List ℕ) (freq : ℚ) : StatReport :=
  calc_and_print_stat (one_side_report_samples startCycles endCycles) freq

/-! Section: Oversampling variant (`one_side_asm_relax_branch_pred_test`) -/

/-- The constant `s_samples_size` (src/tests.h:89). -/
def s_samples_size : ℕ :=
  10000

/-- One attempt's unconditional fill of `m_samples` (src/tests.cpp:219-220):
`obs k` is the (observed value, timestamp) pair returned by the k-th
`consume_and_get_cycles` call of the attempt. -/
def relax_fill_window (obs : ℕ → ℕ × ℕ) : List (ℕ × ℕ) :=
  (List.range s_samples_size).map obs

/-- The post-scan of one attempt (src/tests.cpp:224-226): the timestamp of the
first window entry whose observed value equals the expected sample, or `0`
(the value left in the zero-initialised buffer slot) when no entry matches. -/
def relaxEndCycle (window : List (ℕ × ℕ)) (expected : ℕ) : ℕ :=
  match window.find? (fun p => p.1 == expected) with
  | some p => p.2
  | none => 0

/-- The buffer writes of `one_side_asm_relax_branch_pred_test::another_work`
(src/tests.cpp:207-233): attempt `a` (expecting data sample `a + 1`) scans its
window and writes `m_end_cycles[a]` only when a matching entry is found. -/
def relax_another_work (endCycles : List ℕ) (windows : ℕ → List (ℕ × ℕ))
    (attempts : ℕ) : List ℕ :=
  (List.range attempts).foldl
    (fun v a =>
      match (windows a).find? (fun p => p.1 == a + 1) with
      | some p => v.set a p.2
      | none => v)
    endCycles

/-! Section: Ping-pong variant (`ping_pong_test`, src/tests.cpp:236-269) -/

/-- The constant `s_ping_pongs` (src/tests.h:107). -/
def s_ping_pongs : ℕ :=
  100

/-- Embeds `for (i = start; i < bound; ++i) { <CAS from i to i+1>; ++i; }`: the list of
values `i` at which the body performs its compare-and-swap, with `i` advancing
by 2 per round (once in the body, once in the loop header). -/
def loopBy2 : ℕ → ℕ → ℕ → List ℕ
  | 0, _, _ => []
  | fuel + 1, i, bound => if i < bound then i :: loopBy2 fuel (i + 2) bound else []

/-- The expected values of the CAS operations performed by
`ping_pong_test::one_work` in one attempt (src/tests.cpp:240-245):
`i = 0; i < s_ping_pongs` with stride 2. -/
def oneWorkPongs (R : ℕ) : List ℕ :=
  loopBy2 R 0 R

/-- The expected values of the CAS operations performed by
`ping_pong_test::another_work` in one attempt (src/tests.cpp:252-257):
`i = 1; i < s_ping_pongs - 1` with stride 2. -/
def anotherWorkPongs (R : ℕ) : List ℕ :=
  loopBy2 R 1 (R - 1)

/-- Single-threaded simulation of one ping-pong attempt with the atomic replaced
by a checked counter `v`.  Each side retries its front CAS until it succeeds, so
a step accepts whichever side's pending expected value equals `v` and advances
`v` by one; the trace records `(isPrimarySide, acceptedExpectedValue)`.  The
result is `none` if both sides spin forever (neither front matches) or the fuel
runs out, and the completed trace once both sides have exhausted their CAS
lists. -/
def simPingPong : ℕ → ℕ → List ℕ → List ℕ → Option (List (Bool × ℕ))
  | _, _, [], [] => some []
  | 0, _, _, _ => none
  | fuel + 1, v, s1, s2 =>
    if s1.head? = some v then
      (simPingPong fuel (v + 1) s1.tail s2).map (fun t => (true, v) :: t)
    else if s2.head? = some v then
      (simPingPong fuel (v + 1) s1 s2.tail).map (fun t => (false, v) :: t)
    else none

/-- One simulated attempt of the ping-pong variant with round-trip count `R`:
`one_work` stores `0` into the shared word, then both sides run their CAS loops
(src/tests.cpp:238, 240-245, 252-257). -/
def pingPongTrace (R : ℕ) : Option (List (Bool × ℕ)) :=
  simPingPong (2 * R + 2) 0 (oneWorkPongs R) (anotherWorkPongs R)

/-- Embeds the `ping_pong_test::report` sample collection (src/tests.cpp:261-268): each
attempt's elapsed cycles divided by `s_ping_pongs`. -/
def ping_pong_report_samples (cycles : List ℕ) : List ℚ :=
  (List.range cycles.length).map (fun i => (cycles.getD i 0 : ℚ) / (s_ping_pongs : ℚ))

/-- The concrete trace of the simulated ping-pong attempt at the source's
round-trip count `s_ping_pongs = 100`. -/
def ppTrace100 : List (Bool × ℕ) :=
  (pingPongTrace 100).getD []

/-- The concrete sample sequence of the specification's statistics test. -/
def specSamples : List ℚ :=
  [-1000, 10, 20, 30, 40, 50, 60, 70, 1000]

end CacheLine

namespace CacheLine

lemma trimmedSamples_specSamples : trimmedSamples specSamples = [30, 40, 50] := by decide

lemma trimCount_specSamples : trimCount specSamples.length = 3 := by decide

lemma meanCycles_specSamples : meanCycles specSamples = 40 := by
  rw [meanCycles, trimmedSamples_specSamples, trimCount_specSamples]
  norm_num

lemma rmsSqCycles_specSamples : rmsSqCycles specSamples = 200 / 3 := by
  rw [rmsSqCycles, meanCycles_specSamples, trimmedSamples_specSamples, trimCount_specSamples]
  norm_num

lemma medianCycles_specSamples : medianCycles specSamples = 40 := by decide

lemma length_sortSamples (l : List ℚ) : (sortSamples l).length = l.length :=
  (List.perm_insertionSort (· ≤ ·) l).length_eq

lemma length_resizeVec (v : List ℕ) (n : ℕ) : (resizeVec v n).length = n := by
  simp only [resizeVec, List.length_append, List.length_take, List.length_replicate]
  omega

lemma length_foldl_of_step (step : List ℕ → ℕ → List ℕ)
    (h : ∀ v a, (step v a).length = v.length) :
    ∀ (idxs : List ℕ) (v : List ℕ), (idxs.foldl step v).length = v.length := by
  intro idxs
  induction idxs with
  | nil => intro v; rfl
  | cons a t ih => intro v; rw [List.foldl_cons, ih, h]

lemma cset_foldl_getD_not_mem (c : ℕ → Bool) (f : ℕ → ℕ) :
    ∀ (idxs : List ℕ) (v : List ℕ) (a : ℕ), a ∉ idxs →
      ((idxs.foldl (fun w i => if c i = true then w.set i (f i) else w) v).getD a 0) =
        v.getD a 0 := by
  intro idxs
  induction idxs with
  | nil => intro v a _; rfl
  | cons b t ih =>
    intro v a ha
    simp only [List.mem_cons, not_or] at ha
    rw [List.foldl_cons, ih _ _ ha.2]
    by_cases hc : c b = true
    · rw [if_pos hc, List.getD_eq_getElem?_getD, List.getElem?_set_ne (Ne.symm ha.1),
        ← List.getD_eq_getElem?_getD]
    · rw [if_neg hc]

lemma cset_foldl_getD (c : ℕ → Bool) (f : ℕ → ℕ) :
    ∀ (n : ℕ) (v : List ℕ) (a : ℕ), a < n → a < v.length →
      (((List.range n).foldl (fun w i => if c i = true then w.set i (f i) else w) v).getD a 0) =
        if c a = true then f a else v.getD a 0 := by
  intro n
  induction n with
  | zero => intro v a ha _; omega
  | succ m ih =>
    intro v a ha hav
    have hlen : ∀ w : List ℕ,
        ((List.range m).foldl (fun w i => if c i = true then w.set i (f i) else w) w).length =
          w.length := by
      intro w
      refine length_foldl_of_step _ ?_ _ _
      intro u i
      by_cases h : c i = true <;> simp [h, List.length_set]
    rw [show m + 1 = Nat.succ m from rfl, List.range_succ]
    rcases Nat.lt_succ_iff_lt_or_eq.1 ha with h | h
    · rw [List.foldl_append, List.foldl_cons, List.foldl_nil]
      by_cases hc : c m = true
      · rw [if_pos hc, List.getD_eq_getElem?_getD, List.getElem?_set_ne (by omega : m ≠ a),
          ← List.getD_eq_getElem?_getD]
        exact ih v a h hav
      · rw [if_neg hc]
        exact ih v a h hav
    · subst h
      rw [List.foldl_append, List.foldl_cons, List.foldl_nil]
      have hbase := cset_foldl_getD_not_mem c f (List.range a) v a (by simp)
      by_cases hc : c a = true
      · rw [if_pos hc, if_pos hc, List.getD_eq_getElem?_getD,
          List.getElem?_set_eq_of_lt _ (by rw [hlen]; exact hav)]
        rfl
      · rw [if_neg hc, if_neg hc]
        exact hbase

lemma relax_another_work_eq (endC : List ℕ) (windows : ℕ → List (ℕ × ℕ)) (n : ℕ) :
    relax_another_work endC windows n =
      (List.range n).foldl
        (fun w a =>
          if (((windows a).find? (fun p => p.1 == a + 1)).isSome = true) then
            w.set a (relaxEndCycle (windows a) (a + 1))
          else w)
        endC := by
  unfold relax_another_work
  congr 1
  funext w a
  cases h : (windows a).find? (fun p => p.1 == a + 1) <;> simp [relaxEndCycle, h]

lemma relax_another_work_getD (endC : List ℕ) (windows : ℕ → List (ℕ × ℕ))
    (n a : ℕ) (ha : a < n) (hav : a < endC.length) (h0 : endC.getD a 0 = 0) :
    (relax_another_work endC windows n).getD a 0 = relaxEndCycle (windows a) (a + 1) := by
  rw [relax_another_work_eq,
    cset_foldl_getD (fun a => ((windows a).find? (fun p => p.1 == a + 1)).isSome)
      (fun a => relaxEndCycle (windows a) (a + 1)) n endC a ha hav]
  cases h : (windows a).find? (fun p => p.1 == a + 1) with
  | none => simpa [relaxEndCycle, h] using h0
  | some p => simp [relaxEndCycle, h]

lemma filterMap_ite_eq_filter_map (P : ℕ → Prop) [DecidablePred P] (f : ℕ → ℚ) :
    ∀ l : List ℕ, (l.filterMap (fun i => if P i then some (f i) else none)) =
      (l.filter (fun i => decide (P i))).map f := by
  intro l
  induction l with
  | nil => rfl
  | cons a t ih => by_cases h : P a <;> simp [List.filterMap_cons, List.filter_cons, h, ih]

lemma one_side_report_samples_eq (s e : List ℕ) :
    one_side_report_samples s e =
      ((List.range s.length).filter (fun i => decide (e.getD i 0 ≠ 0))).map
        (fun i => (e.getD i 0 : ℚ) - (s.getD i 0 : ℚ)) := by
  unfold one_side_report_samples
  exact filterMap_ite_eq_filter_map _ _ _

lemma pollLoop_eq_some_spec :
    ∀ (fuel : ℕ) (obs : ℕ → ℤ) (k : ℕ), pollLoop obs fuel = some k →
      obs k = 0 ∧ ∀ j, j < k → obs j ≠ 0 := by
  intro fuel
  induction fuel with
  | zero => intro obs k h; exact absurd h (by simp [pollLoop])
  | succ m ih =>
    intro obs k h
    rw [pollLoop] at h
    by_cases h0 : obs 0 = 0
    · rw [if_pos h0] at h
      obtain rfl : 0 = k := Option.some.inj h
      exact ⟨h0, fun j hj => absurd hj (by omega)⟩
    · rw [if_neg h0] at h
      obtain ⟨k', hk', rfl⟩ := Option.map_eq_some'.1 h
      obtain ⟨h1, h2⟩ := ih _ _ hk'
      refine ⟨h1, ?_⟩
      intro j hj
      cases j with
      | zero => exact h0
      | succ j' => exact h2 j' (by omega)

lemma pollLoop_eq_none_of_never :
    ∀ (fuel : ℕ) (obs : ℕ → ℤ), (∀ j, obs j ≠ 0) → pollLoop obs fuel = none := by
  intro fuel
  induction fuel with
  | zero => intro obs _; rfl
  | succ m ih =>
    intro obs h
    rw [pollLoop, if_neg (h 0), ih (fun k => obs (k + 1)) (fun j => h (j + 1))]
    rfl

lemma drainErrors_pair (e1 e2 : Option String) :
    drainErrors [e1, e2] =
      ((match e1 with | some m => [(1, m)] | none => []) ++
        (match e2 with | some m => [(2, m)] | none => []),
        match e1, e2 with | none, none => 0 | _, _ => 1) := by
  cases e1 <;> cases e2 <;> rfl

lemma trimmedSamples_single : trimmedSamples [(40 : ℚ)] = [40] := by decide

lemma meanCycles_single : meanCycles [(40 : ℚ)] = 40 := by
  rw [meanCycles, trimmedSamples_single]
  norm_num [trimCount, edge]

lemma rmsSqCycles_single : rmsSqCycles [(40 : ℚ)] = 0 := by
  rw [rmsSqCycles, meanCycles_single, trimmedSamples_single]
  norm_num

/-- C1: the statistics reducer sorts the input ascending; it trims `k = 3`
elements from each end exactly when the sample count exceeds 6 (else `k = 0`);
on the specification's concrete input `[-1000, 10, 20, 30, 40, 50, 60, 70, 1000]`
it yields trimmed mean `40`, root-mean-square deviation `√(200/3)` over the
trimmed range (divided by `count - 2k = 3`), and median `40`, the element at
index `⌊count/2⌋ = 4` of the untrimmed sorted sequence. -/
theorem stat_reducer_spec :
    (∀ l : List ℚ, (sortSamples l).Perm l ∧ (sortSamples l).Sorted (· ≤ ·)) ∧
    (∀ n : ℕ, edge n = 3 ↔ 6 < n) ∧
    sortSamples specSamples = [-1000, 10, 20, 30, 40, 50, 60, 70, 1000] ∧
    trimmedSamples specSamples = [30, 40, 50] ∧
    trimCount specSamples.length = 3 ∧
    meanCycles specSamples = 40 ∧
    rmsCycles specSamples = Real.sqrt (200 / 3) ∧
    medianCycles specSamples = 40 ∧
    specSamples.length / 2 = 4 := by
  refine ⟨?_, ?_, by decide, trimmedSamples_specSamples, trimCount_specSamples,
    meanCycles_specSamples, ?_, medianCycles_specSamples, by decide⟩
  · intro l
    exact ⟨List.perm_insertionSort (· ≤ ·) l, List.sorted_insertionSort (· ≤ ·) l⟩
  · intro n
    unfold edge
    split <;> simp_all
  · rw [rmsCycles, rmsSqCycles_specSamples]
    norm_num

/-- C9: for every non-empty sample list the trimmed divisor `count - 2k` is at
least 1 and the median index `⌊count/2⌋` is strictly within the bounds of the
sorted list, so all divisions and index accesses of `calc_and_print_stat` are
well-defined; for the empty list the divisor is zero and the median index is out
of bounds, so a non-empty sample set is a precondition of the reducer. -/
theorem stat_reducer_preconditions :
    (∀ l : List ℚ, l ≠ [] →
      1 ≤ trimCount l.length ∧ l.length / 2 < (sortSamples l).length) ∧
    trimCount (List.length ([] : List ℚ)) = 0 ∧
    ¬ ((List.length ([] : List ℚ)) / 2 < (sortSamples []).length) := by
  refine ⟨?_, by decide, by decide⟩
  intro l hl
  have hn : 1 ≤ l.length := by
    cases l with
    | nil => exact absurd rfl hl
    | cons a t => simp
  rw [length_sortSamples]
  constructor
  · unfold trimCount edge
    split <;> omega
  · omega

/-- Witness for C9 at the one-element list `[5]`. -/
theorem stat_reducer_preconditions_w :
    ([(5 : ℚ)] ≠ []) ∧
    (1 ≤ trimCount [(5 : ℚ)].length ∧ [(5 : ℚ)].length / 2 < (sortSamples [5]).length) :=
  ⟨by decide, stat_reducer_preconditions.1 [5] (by decide)⟩

/-- C2 (code-bug evidence): at the failing input `samples = [40]`,
`cpufreq_ghz = 2`, the rendered mean and rms nanosecond slots are divided by the
frequency (`40/2 = 20` and `0/4 = 0`), but the median nanosecond slot holds the
raw cycles median `40` instead of `40/2 = 20`: src/tests.cpp:81 prints
`samples[samples.size()/2]` twice, labelling the second copy `ns` without
dividing it.  In the zero-frequency branch the output marks the frequency
unknown and renders no nanosecond values, as claimed. -/
theorem median_ns_unconverted :
    (calc_and_print_stat [40] 2).freqKnown = true ∧
    (calc_and_print_stat [40] 2).meanNs = some 20 ∧
    (calc_and_print_stat [40] 2).rmsSqNs = some 0 ∧
    (calc_and_print_stat [40] 2).medianC = 40 ∧
    (calc_and_print_stat [40] 2).medianNs = some 40 ∧
    (calc_and_print_stat [40] 2).medianNs ≠ some ((calc_and_print_stat [40] 2).medianC / 2) ∧
    (calc_and_print_stat [40] 0).freqKnown = false ∧
    (calc_and_print_stat [40] 0).meanNs = none ∧
    (calc_and_print_stat [40] 0).rmsSqNs = none ∧
    (calc_and_print_stat [40] 0).medianNs = none := by
  have hm : medianCycles [(40 : ℚ)] = 40 := by decide
  refine ⟨?_, ?_, ?_, ?_, ?_, ?_, ?_, ?_, ?_, ?_⟩ <;>
    simp [calc_and_print_stat, meanCycles_single, rmsSqCycles_single, hm] <;>
    norm_num

/-- C7: `arrive_and_wait(n)` subtracts `n` from the latch counter via
fetch-subtract; it returns immediately exactly when its own subtraction brings
the counter to zero, which happens exactly when the value read (returned) by the
subtraction equals `n`; otherwise it busy-polls, and when the poll loop returns
it is because a load observed counter value `0` (all earlier loads observed
non-zero values). -/
theorem arrive_and_wait_spec :
    ∀ (counter n : ℤ) (obs : ℕ → ℤ) (fuel : ℕ),
      (arrive_and_wait counter n obs fuel = some true ↔ (fetch_sub counter n).2 = 0) ∧
      ((fetch_sub counter n).1 = n ↔ (fetch_sub counter n).2 = 0) ∧
      (∀ k, pollLoop obs fuel = some k → obs k = 0 ∧ ∀ j, j < k → obs j ≠ 0) := by
  intro counter n obs fuel
  refine ⟨?_, ?_, fun k h => pollLoop_eq_some_spec fuel obs k h⟩
  · unfold arrive_and_wait fetch_sub
    by_cases h : counter = n
    · simp [h]
    · rw [if_neg h]
      simp only [fetch_sub]
      constructor
      · intro hmap
        obtain ⟨k, _, hfalse⟩ := Option.map_eq_some'.1 hmap
        exact absurd hfalse (by simp)
      · intro hz
        exact absurd (by omega : counter = n) h
  · unfold fetch_sub
    constructor <;> intro h <;> omega

/-- Witness for C7: on a latch whose counter holds 2, `arrive_and_wait(2)`
returns immediately, and a poll loop whose first load observes 0 exits at
index 0. -/
theorem arrive_and_wait_spec_w :
    arrive_and_wait 2 2 (fun _ => (0 : ℤ)) 1 = some true ∧
    ((fun _ => (0 : ℤ)) 0 = 0 ∧ ∀ j, j < 0 → (fun _ => (0 : ℤ)) j ≠ 0) :=
  ⟨((arrive_and_wait_spec 2 2 (fun _ => 0) 1).1).2 (by decide),
    (arrive_and_wait_spec 2 2 (fun _ => 0) 1).2.2 0 (by rfl)⟩

/-- C10: the busy-poll loop of `arrive_and_wait` exits only on observing counter
value exactly zero; a call made after the counter has already reached zero (a
third arrival on a two-party latch) drives the counter to `-1`, and if every
subsequent observation only decreases the counter further, the call never
returns no matter how long it runs. -/
theorem latch_reuse_never_returns :
    (∀ (obs : ℕ → ℤ) (fuel k : ℕ), pollLoop obs fuel = some k → obs k = 0) ∧
    (fetch_sub 0 1).2 < 0 ∧
    (∀ (obs : ℕ → ℤ) (fuel : ℕ),
      obs 0 ≤ (fetch_sub 0 1).2 → (∀ j, obs (j + 1) ≤ obs j) →
      arrive_and_wait 0 1 obs fuel = none) := by
  refine ⟨fun obs fuel k h => (pollLoop_eq_some_spec fuel obs k h).1, by decide, ?_⟩
  intro obs fuel h0 hdec
  have hle : ∀ j, obs j ≤ -1 := by
    intro j
    induction j with
    | zero => simpa [fetch_sub] using h0
    | succ m ih => exact le_trans (hdec m) ih
  have hne : ∀ j, obs j ≠ 0 := fun j => by have := hle j; omega
  unfold arrive_and_wait
  rw [if_neg (by simp [fetch_sub]), pollLoop_eq_none_of_never fuel obs hne]
  rfl

/-- Witness for C10: a third arrival on a drained two-party latch, with the
counter observed at `-1` forever, never returns even with ample fuel. -/
theorem latch_reuse_never_returns_w :
    ((fun _ => (-1 : ℤ)) 0 ≤ (fetch_sub 0 1).2 ∧ ∀ j, (fun _ => (-1 : ℤ)) (j + 1) ≤ (fun _ => (-1 : ℤ)) j) ∧
    arrive_and_wait 0 1 (fun _ => (-1 : ℤ)) 1000 = none :=
  ⟨⟨by decide, fun j => le_refl _⟩,
    latch_reuse_never_returns.2.2 (fun _ => (-1 : ℤ)) 1000 (by decide) (fun j => le_refl _)⟩

/-- C3: a worker's timed work phase is invoked if and only if the *other*
worker recorded no failure during core binding or its prepare phase; in
particular a failing primary prepare means the secondary's work phase is run
zero times, while a worker's own recorded failure does not prevent its own work
phase from running. -/
theorem work_gating_spec :
    ∀ (bind1 prep1 bind2 prep2 : Except String Unit) (freq : ℚ),
      ((test_runner_run bind1 prep1 bind2 prep2 freq).work1Invoked = true ↔
        (test_runner_run bind1 prep1 bind2 prep2 freq).error2 = none) ∧
      ((test_runner_run bind1 prep1 bind2 prep2 freq).work2Invoked = true ↔
        (test_runner_run bind1 prep1 bind2 prep2 freq).error1 = none) ∧
      (∀ msg, (test_runner_run bind1 (Except.error msg) bind2 prep2 freq).work2Invoked = false) ∧
      (∀ msg, (test_runner_run bind1 (Except.error msg) (Except.ok ()) (Except.ok ())
        freq).work1Invoked = true) := by
  intro bind1 prep1 bind2 prep2 freq
  refine ⟨?_, ?_, ?_, ?_⟩
  · simp [test_runner_run, workInvoked, Option.isNone_iff_eq_none]
  · simp [test_runner_run, workInvoked, Option.isNone_iff_eq_none]
  · intro msg
    cases bind1 <;> simp [test_runner_run, workInvoked, recordedError]
  · intro msg
    simp [test_runner_run, workInvoked, recordedError]

/-- C4: after both workers finish, `run` returns a non-zero status and never
invokes the report operation when at least one worker recorded a setup failure,
surfacing each recorded failure to the error channel tagged by worker index;
when neither recorded a failure, it invokes the report operation exactly once,
passing the best-effort calibration frequency, and returns zero. -/
theorem run_reporting_spec :
    ∀ (bind1 prep1 bind2 prep2 : Except String Unit) (freq : ℚ),
      ((test_runner_run bind1 prep1 bind2 prep2 freq).status = 0 ↔
        (test_runner_run bind1 prep1 bind2 prep2 freq).error1 = none ∧
        (test_runner_run bind1 prep1 bind2 prep2 freq).error2 = none) ∧
      ((test_runner_run bind1 prep1 bind2 prep2 freq).status ≠ 0 →
        (test_runner_run bind1 prep1 bind2 prep2 freq).reportCalls = []) ∧
      ((test_runner_run bind1 prep1 bind2 prep2 freq).status = 0 →
        (test_runner_run bind1 prep1 bind2 prep2 freq).reportCalls = [freq]) ∧
      (∀ m, (test_runner_run bind1 prep1 bind2 prep2 freq).error1 = some m →
        ((1, m) ∈ (test_runner_run bind1 prep1 bind2 prep2 freq).errChannel ∧
          (test_runner_run bind1 prep1 bind2 prep2 freq).status = 1)) ∧
      (∀ m, (test_runner_run bind1 prep1 bind2 prep2 freq).error2 = some m →
        ((2, m) ∈ (test_runner_run bind1 prep1 bind2 prep2 freq).errChannel ∧
          (test_runner_run bind1 prep1 bind2 prep2 freq).status = 1)) := by
  intro bind1 prep1 bind2 prep2 freq
  cases h1 : recordedError bind1 prep1 <;> cases h2 : recordedError bind2 prep2 <;>
    simp [test_runner_run, h1, h2, drainErrors_pair]

/-- Witness for C4: with the primary worker's binding failing and the secondary
healthy, the run reports nothing, tags the failure with worker index 1, and its
status is non-zero. -/
theorem run_reporting_spec_w :
    (test_runner_run (Except.error "af") (Except.ok ()) (Except.ok ()) (Except.ok ())
      3).reportCalls = [] ∧
    ((1, "af") ∈ (test_runner_run (Except.error "af") (Except.ok ()) (Except.ok ())
      (Except.ok ()) 3).errChannel) :=
  ⟨(run_reporting_spec (Except.error "af") (Except.ok ()) (Except.ok ()) (Except.ok ())
      3).2.1 (by decide),
    ((run_reporting_spec (Except.error "af") (Except.ok ()) (Except.ok ()) (Except.ok ())
      3).2.2.2.1 "af" rfl).1⟩

lemma find?_first_spec :
    ∀ (win : List (ℕ × ℕ)) (e k : ℕ) (hk : k < win.length),
      (win.get ⟨k, hk⟩).1 = e →
      (∀ j (hj : j < k), (win.get ⟨j, Nat.lt_trans hj hk⟩).1 ≠ e) →
      win.find? (fun p => p.1 == e) = some (win.get ⟨k, hk⟩) := by
  intro win
  induction win with
  | nil => intro e k hk; exact absurd hk (by simp)
  | cons a t ih =>
    intro e k hk hke hfirst
    cases k with
    | zero =>
      have ha : a.1 = e := hke
      rw [List.find?_cons_of_pos _ (by simpa using ha)]
      rfl
    | succ m =>
      have ha : a.1 ≠ e := hfirst 0 (Nat.succ_pos m)
      rw [List.find?_cons_of_neg _ (by simpa using ha)]
      exact ih e m (Nat.lt_of_succ_lt_succ hk) hke
        (fun j hj => hfirst (j + 1) (Nat.succ_lt_succ hj))

lemma set_foldl_getD (ts : ℕ → ℕ) (n : ℕ) (v : List ℕ) (a : ℕ)
    (ha : a < n) (hav : a < v.length) :
    ((List.range n).foldl (fun w i => w.set i (ts i)) v).getD a 0 = ts a := by
  have h := cset_foldl_getD (fun _ => true) ts n v a ha hav
  simpa using h

/-- C6: in the oversampling variant, each attempt samples a fixed window of
`s_samples_size = 10000` (value, timestamp) pairs; when no entry of the attempt's
window carries the expected sample value, the attempt's end cycle stays at its
zero-initialised value, and when a matching entry exists the end cycle is the
timestamp of the *first* matching entry; the report's statistics set contains
exactly the attempts with non-zero end cycles, so an absent attempt is excluded
without shifting the sample count the trimming is based on. -/
theorem relax_missing_sample_spec :
    (∀ obs : ℕ → ℕ × ℕ, (relax_fill_window obs).length = s_samples_size) ∧
    (∀ (win : List (ℕ × ℕ)) (e : ℕ), (∀ p ∈ win, p.1 ≠ e) → relaxEndCycle win e = 0) ∧
    (∀ (win : List (ℕ × ℕ)) (e k : ℕ) (hk : k < win.length),
      (win.get ⟨k, hk⟩).1 = e →
      (∀ j (hj : j < k), (win.get ⟨j, Nat.lt_trans hj hk⟩).1 ≠ e) →
      relaxEndCycle win e = (win.get ⟨k, hk⟩).2) ∧
    (∀ (windows : ℕ → List (ℕ × ℕ)) (attempts a : ℕ), a < attempts →
      (relax_another_work (List.replicate attempts 0) windows attempts).getD a 0 =
        relaxEndCycle (windows a) (a + 1)) ∧
    (∀ startC endC : List ℕ,
      one_side_report_samples startC endC =
        ((List.range startC.length).filter (fun i => decide (endC.getD i 0 ≠ 0))).map
          (fun i => (endC.getD i 0 : ℚ) - (startC.getD i 0 : ℚ)) ∧
      (one_side_report startC endC 0).measures =
        ((List.range startC.length).filter (fun i => decide (endC.getD i 0 ≠ 0))).length) := by
  refine ⟨?_, ?_, ?_, ?_, ?_⟩
  · intro obs
    simp [relax_fill_window]
  · intro win e h
    unfold relaxEndCycle
    rw [List.find?_eq_none.2 (fun p hp => by simpa using h p hp)]
  · intro win e k hk hke hfirst
    unfold relaxEndCycle
    rw [find?_first_spec win e k hk hke hfirst]
  · intro windows attempts a ha
    have hlen : a < (List.replicate attempts (0 : ℕ)).length := by
      simpa using ha
    have hzero : (List.replicate attempts (0 : ℕ)).getD a 0 = 0 := by
      rw [List.getD_eq_getElem?_getD, List.getElem?_replicate]
      split <;> rfl
    exact relax_another_work_getD _ windows attempts a ha hlen hzero
  · intro startC endC
    refine ⟨one_side_report_samples_eq startC endC, ?_⟩
    simp [one_side_report, calc_and_print_stat, one_side_report_samples_eq startC endC]

/-- Witness for C6 at concrete windows: a window without the expected value 9
leaves the end cycle at zero; in a window holding the expected value 6 twice the
first matching timestamp is taken; a one-attempt run with a matching window
writes the matched timestamp. -/
theorem relax_missing_sample_spec_w :
    relaxEndCycle [(5, 7), (6, 8), (6, 11)] 9 = 0 ∧
    relaxEndCycle [(5, 7), (6, 8), (6, 11)] 6 = 8 ∧
    (relax_another_work (List.replicate 1 0) (fun _ => [(1, 3)]) 1).getD 0 0 =
      relaxEndCycle [(1, 3)] 1 := by
  refine ⟨relax_missing_sample_spec.2.1 _ 9 (by decide), ?_,
    relax_missing_sample_spec.2.2.2.1 (fun _ => [(1, 3)]) 1 0 (by decide)⟩
  have hk3 : (1 : ℕ) < ([(5, 7), (6, 8), (6, 11)] : List (ℕ × ℕ)).length := by decide
  have h := relax_missing_sample_spec.2.2.1 [(5, 7), (6, 8), (6, 11)] 6 1 hk3
    rfl (fun j hj => by
      have hj0 : j = 0 := by omega
      subst hj0
      simp)
  exact h.trans (by rfl)

end CacheLine

set_option maxRecDepth 8000

namespace CacheLine

/-- C5 (counterexample): in the single-threaded simulation of one ping-pong
attempt with round-trip count `R = s_ping_pongs = 100`, the accepted CAS values
do *not* visit `0..R-1 = 0..99` each once: the primary's loop advances even
values below 100 and the secondary's loop odd values below 99, so the value 99
is never the expected value of an accepted CAS, and the accepted sequence is
`0..98` (99 transfers), not `0..99`. -/
theorem ping_pong_missing_round_trip :
    s_ping_pongs = 100 ∧
    pingPongTrace 100 = some ppTrace100 ∧
    (99 : ℕ) ∉ ppTrace100.map Prod.snd ∧
    ppTrace100.map Prod.snd ≠ List.range 100 := by
  refine ⟨rfl, by decide, by decide, by decide⟩

/-- C5 (amended): in the single-threaded simulation with `R = 100`, each side
advances the shared value from `i` to `i+1` only when it currently holds `i`,
the simulation completes with the accepted CAS values visiting `0..R-2` exactly
once each in increasing order, acceptance alternating between the two sides
(starting and ending with the primary), and each reported per-attempt sample
equals the attempt's elapsed cycles divided by `R = 100`. -/
theorem ping_pong_trace_spec :
    pingPongTrace 100 = some ppTrace100 ∧
    ppTrace100.map Prod.snd = List.range 99 ∧
    ppTrace100.map Prod.fst = (List.range 99).map (fun k => decide (k % 2 = 0)) ∧
    (∀ (cycles : List ℕ) (i : ℕ), i < cycles.length →
      (ping_pong_report_samples cycles)[i]? = some ((cycles.getD i 0 : ℚ) / 100)) := by
  refine ⟨by decide, by decide, by decide, ?_⟩
  intro cycles i hi
  simp only [ping_pong_report_samples, List.getElem?_map, List.getElem?_range, hi,
    if_pos hi, Option.map_some]
  norm_num [s_ping_pongs]

/-- Witness for C5 (amended): the one-attempt cycle list `[500]` yields the
per-attempt sample `500 / 100 = 5`. -/
theorem ping_pong_trace_spec_w :
    (0 : ℕ) < [(500 : ℕ)].length ∧ (ping_pong_report_samples [500])[0]? = some 5 := by
  refine ⟨by decide, ?_⟩
  have h := ping_pong_trace_spec.2.2.2 [500] 0 (by decide)
  rw [h]
  norm_num

/-- C8 (counterexample): the ping-pong variant does not allocate two sample
buffers: its secondary prepare phase (src/tests.h:114) has an empty body and
allocates nothing, so after both prepare phases with `attempts_count = 5` the
variant holds exactly one sample buffer, written by the primary worker, and no
buffer written by the secondary. -/
theorem ping_pong_secondary_buffer_missing :
    ping_pong_another_prepare (ping_pong_one_prepare ⟨[]⟩ 5) = ping_pong_one_prepare ⟨[]⟩ 5 ∧
    ping_pong_sample_buffers (ping_pong_another_prepare (ping_pong_one_prepare ⟨[]⟩ 5)) =
      [(Worker.primary, 5)] ∧
    ¬ ∃ n, (Worker.secondary, n) ∈ ping_pong_sample_buffers
      (ping_pong_another_prepare (ping_pong_one_prepare ⟨[]⟩ 5)) := by
  refine ⟨rfl, by decide, ?_⟩
  rintro ⟨n, hn⟩
  simp [ping_pong_sample_buffers] at hn

/-- C8 (amended): the one-sided variants' prepare phases allocate two sample
buffers sized to `attempts_count` — the start-cycle buffer written only by the
primary worker, the end-cycle buffer written only by the secondary — while the
ping-pong variant allocates a single primary-written buffer sized to
`attempts_count` (its secondary prepare allocates nothing); no work phase
changes a buffer's length, and the `a`-th loop iteration of a work phase writes
index `a` of its buffer, so index `i` corresponds to the `i`-th attempt. -/
theorem sample_buffers_spec :
    ∀ (attempts : ℕ) (s0 : OneSideBuffers) (p0 : PingPongBuffers) (ts : ℕ → ℕ)
      (windows : ℕ → List (ℕ × ℕ)),
      one_side_sample_buffers
        (one_side_another_prepare (one_side_one_prepare s0 attempts) attempts) =
        [(Worker.primary, attempts), (Worker.secondary, attempts)] ∧
      ping_pong_sample_buffers
        (ping_pong_another_prepare (ping_pong_one_prepare p0 attempts)) =
        [(Worker.primary, attempts)] ∧
      (∀ v : List ℕ, (one_side_one_work v ts attempts).length = v.length) ∧
      (∀ v : List ℕ, (one_side_another_work v ts attempts).length = v.length) ∧
      (∀ v : List ℕ, (relax_another_work v windows attempts).length = v.length) ∧
      (∀ a, a < attempts →
        (one_side_one_work (resizeVec s0.startCycles attempts) ts attempts).getD a 0 = ts a) ∧
      (∀ a, a < attempts →
        (one_side_another_work (resizeVec s0.endCycles attempts) ts attempts).getD a 0 =
          ts a) := by
  intro attempts s0 p0 ts windows
  refine ⟨?_, ?_, ?_, ?_, ?_, ?_, ?_⟩
  · simp [one_side_sample_buffers, one_side_one_prepare, one_side_another_prepare,
      length_resizeVec]
  · simp [ping_pong_sample_buffers, ping_pong_one_prepare, ping_pong_another_prepare,
      length_resizeVec]
  · intro v
    exact length_foldl_of_step _ (fun u a => List.length_set u a (ts a)) _ _
  · intro v
    exact length_foldl_of_step _ (fun u a => List.length_set u a (ts a)) _ _
  · intro v
    refine length_foldl_of_step _ ?_ _ _
    intro u a
    cases h : (windows a).find? (fun p => p.1 == a + 1) <;> simp [List.length_set]
  · intro a ha
    exact set_foldl_getD ts attempts _ a ha (by rw [length_resizeVec]; exact ha)
  · intro a ha
    exact set_foldl_getD ts attempts _ a ha (by rw [length_resizeVec]; exact ha)

/-- Witness for C8 (amended): with `attempts_count = 3`, the primary's work
phase records its attempt-0 timestamp at index 0 of the primary buffer. -/
theorem sample_buffers_spec_w :
    (0 : ℕ) < 3 ∧
    (one_side_one_work (resizeVec [] 3) (fun a => a + 10) 3).getD 0 0 = 10 :=
  ⟨by decide,
    (sample_buffers_spec 3 ⟨[], []⟩ ⟨[]⟩ (fun a => a + 10) (fun _ => [])).2.2.2.2.2.1 0
      (by decide)⟩

end CacheLine
